import Mathlib

/-!
Verification development for the youtube-analyzer-mcp worker.

The definitions below are a shallow embedding of `src/index.ts` and of the
job table declared in `src/db/schema.ts`:

* `Job` mirrors the columns of the `video_analysis_jobs` table; timestamps
  are integers (milliseconds), nullable columns are `Option`.
* `Store` is the D1 table as an association list from job id to record;
  `jobUpdate` is `UPDATE ... WHERE id = ?` (a no-op when the row is absent)
  and `jobGet` is `SELECT ... WHERE id = ?`.
* `classifyError` is the error classification chain in the catch block of
  `processVideoAnalysis` (lines 170-187 of index.ts).
* `processVideoAnalysis` is the job processor.  Effects of the outside
  world are supplied through `Env`: each D1 operation the processor issues
  may raise (the `fail*` flags, carrying the message `storeErr`), the
  outcome of the Gemini streaming call is `analysis` (an exception payload
  or the list of streamed chunk texts), and the clock readings are `now1`
  (the initial update), `now2` (the completion update) and `nowF` (the
  catch block).  Each update phase of the code reads the clock within a
  few milliseconds, modelled as a single reading per phase.
* `queueConsume` is the queue consumer: per message it runs the processor,
  acknowledges when the processor returned, and requests redelivery
  (does not acknowledge) when the processor raised.
* `parseDuration` is the ISO-8601 duration parser, translated from the
  regex `PT(?:(\d+)H)?(?:(\d+)M)?(?:(\d+)S)?` with leftmost match and
  greedy digit groups.
* `useLowResolution` is the resolution policy
  `force_low_resolution || durationSeconds > 3600`.
-/

/-- Job status enum of the `video_analysis_jobs` table. -/
inductive Status where
  | pending
  | processing
  | completed
  | failed
deriving DecidableEq, Repr

/-- One row of the `video_analysis_jobs` table. -/
structure Job where
  status : Status
  youtube_url : String
  question : String
  model : String
  use_low_resolution : Bool
  result : Option String
  error : Option String
  estimated_duration : Option Int
  processing_time : Option Int
  created_at : Int
  started_at : Option Int
  completed_at : Option Int
deriving DecidableEq, Repr

/-- The D1 table: an association list from job id to record. -/
abbrev Store := List (String × Job)

/-- SELECT the row with the given id (first match). -/
def jobGet : Store → String → Option Job
  | [], _ => none
  | (k, j) :: rest, id => if k = id then some j else jobGet rest id

/-- UPDATE every row whose id matches (the id is a primary key, so at most
one row in a well-formed store). -/
def jobUpdate : Store → String → (Job → Job) → Store
  | [], _, _ => []
  | (k, j) :: rest, id, f =>
    if k = id then (k, f j) :: jobUpdate rest id f
    else (k, j) :: jobUpdate rest id f

/-- Does the pattern occur at the head of the list (JS `startsWith` on a
char list). -/
def listStartsWith : List Char → List Char → Bool
  | [], _ => true
  | _ :: _, [] => false
  | p :: ps, c :: cs => (p == c) && listStartsWith ps cs

/-- Does the pattern occur anywhere in the list. -/
def containsSeq (pat : List Char) : List Char → Bool
  | [] => listStartsWith pat []
  | c :: cs => listStartsWith pat (c :: cs) || containsSeq pat cs

/-- JS `String.prototype.includes`: substring containment. -/
def strIncludes (s pat : String) : Bool :=
  containsSeq pat.data s.data

/-- The fallback message of the catch block when the thrown value is not an
`Error` instance (line 170 of index.ts). -/
def unknownErrorMsg : String := "Unknown error occurred during video analysis"

/-- The error classification chain of the catch block (lines 170-187 of
index.ts).  `none` stands for a thrown value that is not an `Error`
instance, `some m` for an `Error` with message `m`. -/
def classifyError : Option String → String
  | none => unknownErrorMsg
  | some msg =>
    if strIncludes msg "API_KEY" || strIncludes msg "UNAUTHENTICATED" then
      "Invalid or missing Google Generative AI API key"
    else if strIncludes msg "QUOTA_EXCEEDED" || strIncludes msg "RESOURCE_EXHAUSTED" then
      "API quota exceeded. Please try again later or upgrade your plan"
    else if strIncludes msg "PERMISSION_DENIED" then
      "Permission denied. Check your API key permissions"
    else if strIncludes msg "NOT_FOUND" then
      "Video not found or is private/unavailable"
    else if strIncludes msg "INVALID_ARGUMENT" then
      "Invalid video format or unsupported content"
    else msg

/-- Accumulation of the streamed chunks (lines 136-141 of index.ts): chunks
whose `text` field is absent are skipped, the rest are concatenated. -/
def accumulate (chunks : List (Option String)) : String :=
  chunks.foldl (fun acc c => match c with | some t => acc ++ t | none => acc) ""

/-- `!s.trim()` in JS: true when every character is whitespace (in
particular when the string is empty). -/
def isBlank (s : String) : Bool :=
  s.data.all Char.isWhitespace

/-- `Math.floor((later - earlier) / 1000)`: millisecond difference floored
to whole seconds. -/
def floorSecs (later earlier : Int) : Int :=
  Int.fdiv (later - earlier) 1000

/-- The message thrown when the accumulated analysis text is blank
(line 144 of index.ts). -/
def noAnalysisMsg : String :=
  "No analysis could be generated for this video. The video might be private, age-restricted, or unavailable."

/-- The outside world of one processor execution: which of the five D1
operations raise, the message a raising D1 operation carries, the outcome
of the streaming analysis call, and the clock readings of the three update
phases. -/
instance {α β : Type} [DecidableEq α] [DecidableEq β] : DecidableEq (Except α β) := fun x y =>
  match x, y with
  | Except.error a, Except.error b =>
    match decEq a b with
    | isTrue h => isTrue (by rw [h])
    | isFalse h => isFalse (by intro hh; injection hh; contradiction)
  | Except.error _, Except.ok _ => isFalse (by intro hh; exact Except.noConfusion hh)
  | Except.ok _, Except.error _ => isFalse (by intro hh; exact Except.noConfusion hh)
  | Except.ok a, Except.ok b =>
    match decEq a b with
    | isTrue h => isTrue (by rw [h])
    | isFalse h => isFalse (by intro hh; injection hh; contradiction)

structure Env where
  failUpdate1 : Bool
  failSelect1 : Bool
  failUpdate2 : Bool
  failSelect2 : Bool
  failUpdate3 : Bool
  storeErr : Option String
  analysis : Except (Option String) (List (Option String))
  now1 : Int
  now2 : Int
  nowF : Int
deriving DecidableEq

/-- Result of one processor execution: the store afterwards, whether the
execution raised out of `processVideoAnalysis` (which makes the consumer
request redelivery), and whether the streaming analysis call was issued. -/
structure ProcOut where
  db : Store
  raised : Bool
  invoked : Bool
deriving DecidableEq, Repr

/-- The `job?.started_at ? Math.floor((Date.now() - started_at)/1000) : 0`
computation of the catch block (lines 163-168 of index.ts). -/
def catchProcTime (db : Store) (id : String) (nowF : Int) : Int :=
  match jobGet db id with
  | some job =>
    match job.started_at with
    | some st => floorSecs nowF st
    | none => 0
  | none => 0

/-- The catch block of `processVideoAnalysis` (lines 161-198 of index.ts):
re-read the job, compute the processing time, classify the error and write
the `failed` record.  The read and the write may themselves raise; in that
case the exception escapes the processor and nothing further is written. -/
def handleFailure (id : String) (env : Env) (db : Store) (invoked : Bool)
    (err : Option String) : ProcOut :=
  if env.failSelect2 then ⟨db, true, invoked⟩
  else if env.failUpdate3 then ⟨db, true, invoked⟩
  else
    ⟨jobUpdate db id (fun j =>
      { j with status := Status.failed, error := some (classifyError err),
               processing_time := some (catchProcTime db id env.nowF),
               completed_at := some env.nowF }), false, invoked⟩

/-- The payload of the initial status update (lines 80-85 of index.ts):
set the status to `processing` and stamp `started_at`, unconditionally. -/
def procMark (env : Env) : Job → Job := fun j =>
  { j with status := Status.processing, started_at := some env.now1 }

/-- The job processor `processVideoAnalysis` (lines 75-199 of index.ts).
The try block: unconditionally set the status to `processing` and
`started_at`, re-read the job (throwing when it is absent), issue the
streaming analysis call, accumulate the chunks, throw on a blank result,
and otherwise write the `completed` record.  Every thrown value lands in
`handleFailure`. -/
def processVideoAnalysis (id : String) (env : Env) (db : Store) : ProcOut :=
  if env.failUpdate1 then handleFailure id env db false env.storeErr
  else
    let db1 := jobUpdate db id (procMark env)
    if env.failSelect1 then handleFailure id env db1 false env.storeErr
    else
      match jobGet db1 id with
      | none => handleFailure id env db1 false (some "Job not found")
      | some job =>
        match env.analysis with
        | Except.error e => handleFailure id env db1 true e
        | Except.ok chunks =>
          let analysisResult := accumulate chunks
          if isBlank analysisResult then
            handleFailure id env db1 true (some noAnalysisMsg)
          else
            let processingTime :=
              match job.started_at with
              | some st => floorSecs env.now2 st
              | none => 0
            if env.failUpdate2 then handleFailure id env db1 true env.storeErr
            else
              ⟨jobUpdate db1 id (fun j =>
                { j with status := Status.completed,
                         result := some analysisResult,
                         completed_at := some env.now2,
                         processing_time := some processingTime }),
               false, true⟩

/-- The queue consumer (lines 204-213 of index.ts): per message run the
processor in a try block; acknowledge when it returns, request redelivery
(entry `false` in the acknowledgement list) when it raises, and continue
with the remaining messages either way. -/
def queueConsume : List (String × Env) → Store → Store × List Bool
  | [], db => (db, [])
  | (id, env) :: rest, db =>
    let out := processVideoAnalysis id env db
    let next := queueConsume rest out.db
    (next.1, (!out.raised) :: next.2)

/-- Digit-string to number, as `parseInt` on a capture group of `\d+`. -/
def digitsToNat (ds : List Char) : Nat :=
  ds.foldl (fun a c => a * 10 + (c.toNat - 48)) 0

/-- One optional group `(?:(\d+)X)?` of the duration regex at the current
position: greedily take the maximal digit run; when it is nonempty and the
next character is the unit, consume both and return the value, otherwise
leave the position unchanged and return 0 (the `match[i] || 0` default).
Greediness is exact here because a unit letter is never a digit, so the
regex engine cannot succeed by giving digits back. -/
def takeNumUnit (l : List Char) (u : Char) : Nat × List Char :=
  let ds := l.takeWhile Char.isDigit
  if ds.isEmpty then (0, l)
  else
    match l.drop ds.length with
    | c :: rest => if c = u then (digitsToNat ds, rest) else (0, l)
    | [] => (0, l)

/-- Leftmost occurrence of the literal `PT` of the duration regex; returns
the remainder of the string after it, or `none` when the regex does not
match (no `PT` anywhere). -/
def afterPT : List Char → Option (List Char)
  | [] => none
  | c :: cs =>
    if listStartsWith ['P', 'T'] (c :: cs) then some cs.tail
    else afterPT cs

/-- `parseDuration` (lines 44-53 of index.ts): match
`PT(?:(\d+)H)?(?:(\d+)M)?(?:(\d+)S)?` against the string, return 0 when it
does not match, otherwise hours, minutes and seconds combined. -/
def parseDuration (duration : String) : Nat :=
  match afterPT duration.data with
  | none => 0
  | some rest =>
    let hm := takeNumUnit rest 'H'
    let mm := takeNumUnit hm.2 'M'
    let sm := takeNumUnit mm.2 'S'
    hm.1 * 3600 + mm.1 * 60 + sm.1

/-- The resolution policy
`force_low_resolution || durationSeconds > 3600` (lines 263-264 and
447-448 of index.ts). -/
def useLowResolution (force_low_resolution : Bool) (durationSeconds : Nat) : Bool :=
  force_low_resolution || decide (durationSeconds > 3600)

/-- Is an optional text column set to a nonempty string. -/
def optNonEmpty : Option String → Bool
  | some s => !(s == "")
  | none => false

/-- Decimal digit character of a value below ten (specification-side
renderer used to state the duration-parser property). -/
def digitChar : Nat → Char
  | 0 => '0'
  | 1 => '1'
  | 2 => '2'
  | 3 => '3'
  | 4 => '4'
  | 5 => '5'
  | 6 => '6'
  | 7 => '7'
  | 8 => '8'
  | _ + 9 => '9'

/-- Decimal rendering of a natural number (specification-side renderer
used to state the duration-parser property). -/
def natDigits (n : Nat) : List Char :=
  if _h : n < 10 then [digitChar n]
  else natDigits (n / 10) ++ [digitChar (n % 10)]
decreasing_by exact Nat.div_lt_self (by omega) (by omega)

/-- The canonical full ISO-8601 duration string `PT<h>H<m>M<s>S`
(specification side, used to state the duration-parser property). -/
def mkPTString (h m s : Nat) : String :=
  ⟨'P' :: 'T' :: (natDigits h ++ 'H' :: (natDigits m ++ 'M' :: (natDigits s ++ ['S'])))⟩

-- Sample records and environments used by the concrete evaluations below.

/-- A freshly inserted job (all defaults of the schema). -/
def pendingJob : Job :=
  { status := Status.pending
    youtube_url := "https://youtube.com/watch?v=abc123"
    question := "What is this video about"
    model := "gemini-2.5-flash"
    use_low_resolution := false
    result := none
    error := none
    estimated_duration := some 300
    processing_time := none
    created_at := 0
    started_at := none
    completed_at := none }

/-- A job already in its terminal `completed` state. -/
def completedJob : Job :=
  { pendingJob with
    status := Status.completed
    result := some "old answer"
    started_at := some 100
    completed_at := some 200
    processing_time := some 0 }

/-- A fault-free environment whose analysis call streams one chunk. -/
def benignEnv : Env :=
  { failUpdate1 := false, failSelect1 := false, failUpdate2 := false
    failSelect2 := false, failUpdate3 := false
    storeErr := some "store fault"
    analysis := Except.ok [some "All good"]
    now1 := 1000, now2 := 61500, nowF := 70000 }

/-- A fault-free environment whose analysis call raises a quota error. -/
def quotaEnv : Env :=
  { benignEnv with analysis := Except.error (some "QUOTA_EXCEEDED: rate limit") }

/-- An environment where the initial status update raises (store briefly
unreachable) but every later store operation succeeds. -/
def storeDownEnv : Env :=
  { benignEnv with failUpdate1 := true, storeErr := some "D1 store unreachable" }

-- Sanity examples (processor behavior on concrete inputs).

example : (processVideoAnalysis "job1" benignEnv [("job1", pendingJob)]).raised = false := by decide

example :
    (jobGet (processVideoAnalysis "job1" benignEnv [("job1", pendingJob)]).db "job1").map
      (fun j => (j.status, j.result, j.processing_time))
    = some (Status.completed, some "All good", some 60) := by decide

example : parseDuration "PT1H2M3S" = 3723 := by decide
example : parseDuration "PT30M" = 1800 := by decide
example : parseDuration "bogus" = 0 := by decide
example : parseDuration "PT" = 0 := by decide
example : classifyError (some "UNAUTHENTICATED: bad key")
    = "Invalid or missing Google Generative AI API key" := by decide

-- Helper lemmas about the store and the catch block.

/-- Reading back the updated row. -/
theorem jobGet_jobUpdate_self (db : Store) (id : String) (f : Job → Job) :
    jobGet (jobUpdate db id f) id = (jobGet db id).map f := by
  induction db with
  | nil => rfl
  | cons p rest ih =>
    obtain ⟨k, j⟩ := p
    by_cases h : k = id
    · simp [jobUpdate, jobGet, h]
    · simp [jobUpdate, jobGet, h, ih]

/-- When the re-read of the catch block raises, the exception escapes the
processor and the store is untouched. -/
theorem handleFailure_eq_of_failSelect2 (id : String) (env : Env) (db : Store)
    (inv : Bool) (e : Option String) (h : env.failSelect2 = true) :
    handleFailure id env db inv e = ⟨db, true, inv⟩ := by
  simp [handleFailure, h]

/-- When the failure write of the catch block raises, the exception escapes
the processor and the store is untouched. -/
theorem handleFailure_eq_of_failUpdate3 (id : String) (env : Env) (db : Store)
    (inv : Bool) (e : Option String) (h2 : env.failSelect2 = false)
    (h3 : env.failUpdate3 = true) :
    handleFailure id env db inv e = ⟨db, true, inv⟩ := by
  simp [handleFailure, h2, h3]

/-- When both catch-block store operations succeed, the failure record is
written and the processor returns normally. -/
theorem handleFailure_eq_write (id : String) (env : Env) (db : Store)
    (inv : Bool) (e : Option String) (h2 : env.failSelect2 = false)
    (h3 : env.failUpdate3 = false) :
    handleFailure id env db inv e =
      ⟨jobUpdate db id (fun j =>
        { j with status := Status.failed, error := some (classifyError e),
                 processing_time := some (catchProcTime db id env.nowF),
                 completed_at := some env.nowF }), false, inv⟩ := by
  simp [handleFailure, h2, h3]

/-- The catch block never changes which analysis invocation happened. -/
theorem handleFailure_invoked (id : String) (env : Env) (db : Store)
    (inv : Bool) (e : Option String) :
    (handleFailure id env db inv e).invoked = inv := by
  unfold handleFailure
  split
  · rfl
  · split
    · rfl
    · rfl

/-- Catch-block outcome when the job row is present: either the exception
escaped and the row is untouched, or the failure record was written. -/
theorem handleFailure_final (id : String) (env : Env) (db : Store)
    (inv : Bool) (e : Option String) (j : Job) (h : jobGet db id = some j) :
    ∃ j', jobGet (handleFailure id env db inv e).db id = some j'
      ∧ j'.started_at = j.started_at
      ∧ j'.result = j.result
      ∧ ((j' = j ∧ (handleFailure id env db inv e).raised = true)
        ∨ (j'.status = Status.failed
            ∧ j'.error = some (classifyError e)
            ∧ j'.completed_at = some env.nowF
            ∧ j'.processing_time = some (catchProcTime db id env.nowF)
            ∧ (handleFailure id env db inv e).raised = false)) := by
  by_cases h2 : env.failSelect2 = true
  · rw [handleFailure_eq_of_failSelect2 id env db inv e h2]
    exact ⟨j, h, rfl, rfl, Or.inl ⟨rfl, rfl⟩⟩
  · rw [Bool.not_eq_true] at h2
    by_cases h3 : env.failUpdate3 = true
    · rw [handleFailure_eq_of_failUpdate3 id env db inv e h2 h3]
      exact ⟨j, h, rfl, rfl, Or.inl ⟨rfl, rfl⟩⟩
    · rw [Bool.not_eq_true] at h3
      rw [handleFailure_eq_write id env db inv e h2 h3]
      have hg : jobGet (jobUpdate db id (fun jj =>
          { jj with status := Status.failed, error := some (classifyError e),
                    processing_time := some (catchProcTime db id env.nowF),
                    completed_at := some env.nowF })) id
          = some { j with status := Status.failed, error := some (classifyError e),
                          processing_time := some (catchProcTime db id env.nowF),
                          completed_at := some env.nowF } := by
        rw [jobGet_jobUpdate_self, h]
        rfl
      exact ⟨_, hg, rfl, rfl, Or.inr ⟨rfl, rfl, rfl, rfl, rfl⟩⟩

/-- A classified message is empty only when the raw message was empty and
matched no category. -/
theorem classifyError_ne_empty (e : Option String)
    (h : ∀ m, e = some m → m ≠ "") : classifyError e ≠ "" := by
  cases e with
  | none =>
    simp [classifyError, unknownErrorMsg]
  | some m =>
    have hm := h m rfl
    simp only [classifyError]
    repeat' split
    any_goals decide
    exact hm

/-- Outcome of one full processor execution on a present job row whose
initial status update succeeds: the row afterwards carries this delivery's
start time and has exactly one of three shapes — still `processing` with
the exception escaping, `completed` with the accumulated result, or
`failed` with a classified message. -/
theorem processRun_cases (db : Store) (id : String) (env : Env) (job : Job)
    (hget : jobGet db id = some job) (hu1 : env.failUpdate1 = false) :
    ∃ j', jobGet (processVideoAnalysis id env db).db id = some j'
      ∧ j'.started_at = some env.now1
      ∧ (((j'.status = Status.processing ∧ j'.result = job.result ∧ j'.error = job.error)
            ∧ (processVideoAnalysis id env db).raised = true)
        ∨ ((j'.status = Status.completed ∧ j'.error = job.error
              ∧ ∃ chunks, env.analysis = Except.ok chunks
                  ∧ isBlank (accumulate chunks) = false
                  ∧ j'.result = some (accumulate chunks)
                  ∧ j'.completed_at = some env.now2
                  ∧ j'.processing_time = some (floorSecs env.now2 env.now1))
            ∧ (processVideoAnalysis id env db).raised = false)
        ∨ ((j'.status = Status.failed ∧ j'.result = job.result
              ∧ (∃ e, (e = env.storeErr ∨ e = some noAnalysisMsg ∨ env.analysis = Except.error e)
                  ∧ j'.error = some (classifyError e))
              ∧ j'.completed_at = some env.nowF
              ∧ j'.processing_time = some (floorSecs env.nowF env.now1))
            ∧ (processVideoAnalysis id env db).raised = false)) := by
  have hmid : jobGet (jobUpdate db id (procMark env)) id
      = some (procMark env job) := by
    rw [jobGet_jobUpdate_self, hget]
    rfl
  have hct : catchProcTime (jobUpdate db id (procMark env)) id env.nowF
      = floorSecs env.nowF env.now1 := by
    simp [catchProcTime, hmid, procMark]
  by_cases hs1 : env.failSelect1 = true
  · have hrun : processVideoAnalysis id env db
        = handleFailure id env (jobUpdate db id (procMark env)) false env.storeErr := by
      simp [processVideoAnalysis, hu1, hs1]
    rw [hrun]
    obtain ⟨j', hg, hst, hres, hcases⟩ :=
      handleFailure_final id env (jobUpdate db id (procMark env)) false env.storeErr
        (procMark env job) hmid
    refine ⟨j', hg, hst, ?_⟩
    rcases hcases with ⟨heq, hraised⟩ | ⟨hstat, herr, hcomp, hpt, hraised⟩
    · subst heq
      exact Or.inl ⟨⟨rfl, rfl, rfl⟩, hraised⟩
    · exact Or.inr (Or.inr ⟨⟨hstat, hres, ⟨env.storeErr, Or.inl rfl, herr⟩,
        hcomp, by rw [hpt, hct]⟩, hraised⟩)
  · rw [Bool.not_eq_true] at hs1
    rcases henv : env.analysis with e | chunks
    · have hrun : processVideoAnalysis id env db
          = handleFailure id env (jobUpdate db id (procMark env)) true e := by
        simp [processVideoAnalysis, hu1, hs1, hmid, henv]
      rw [hrun]
      obtain ⟨j', hg, hst, hres, hcases⟩ :=
        handleFailure_final id env (jobUpdate db id (procMark env)) true e
          (procMark env job) hmid
      refine ⟨j', hg, hst, ?_⟩
      rcases hcases with ⟨heq, hraised⟩ | ⟨hstat, herr, hcomp, hpt, hraised⟩
      · subst heq
        exact Or.inl ⟨⟨rfl, rfl, rfl⟩, hraised⟩
      · exact Or.inr (Or.inr ⟨⟨hstat, hres, ⟨e, Or.inr (Or.inr rfl), herr⟩,
          hcomp, by rw [hpt, hct]⟩, hraised⟩)
    · by_cases hb : isBlank (accumulate chunks) = true
      · have hrun : processVideoAnalysis id env db
            = handleFailure id env (jobUpdate db id (procMark env)) true (some noAnalysisMsg) := by
          simp [processVideoAnalysis, hu1, hs1, hmid, henv, hb]
        rw [hrun]
        obtain ⟨j', hg, hst, hres, hcases⟩ :=
          handleFailure_final id env (jobUpdate db id (procMark env)) true (some noAnalysisMsg)
            (procMark env job) hmid
        refine ⟨j', hg, hst, ?_⟩
        rcases hcases with ⟨heq, hraised⟩ | ⟨hstat, herr, hcomp, hpt, hraised⟩
        · subst heq
          exact Or.inl ⟨⟨rfl, rfl, rfl⟩, hraised⟩
        · exact Or.inr (Or.inr ⟨⟨hstat, hres, ⟨some noAnalysisMsg, Or.inr (Or.inl rfl), herr⟩,
            hcomp, by rw [hpt, hct]⟩, hraised⟩)
      · rw [Bool.not_eq_true] at hb
        by_cases hu2 : env.failUpdate2 = true
        · have hrun : processVideoAnalysis id env db
              = handleFailure id env (jobUpdate db id (procMark env)) true env.storeErr := by
            simp [processVideoAnalysis, hu1, hs1, hmid, henv, hb, hu2]
          rw [hrun]
          obtain ⟨j', hg, hst, hres, hcases⟩ :=
            handleFailure_final id env (jobUpdate db id (procMark env)) true env.storeErr
              (procMark env job) hmid
          refine ⟨j', hg, hst, ?_⟩
          rcases hcases with ⟨heq, hraised⟩ | ⟨hstat, herr, hcomp, hpt, hraised⟩
          · subst heq
            exact Or.inl ⟨⟨rfl, rfl, rfl⟩, hraised⟩
          · exact Or.inr (Or.inr ⟨⟨hstat, hres, ⟨env.storeErr, Or.inl rfl, herr⟩,
              hcomp, by rw [hpt, hct]⟩, hraised⟩)
        · rw [Bool.not_eq_true] at hu2
          have hrun : processVideoAnalysis id env db
              = ⟨jobUpdate (jobUpdate db id (procMark env)) id (fun j =>
                  { j with status := Status.completed,
                           result := some (accumulate chunks),
                           completed_at := some env.now2,
                           processing_time := some (floorSecs env.now2 env.now1) }),
                 false, true⟩ := by
            simp [processVideoAnalysis, hu1, hs1, hmid, henv, hb, hu2, procMark]
          rw [hrun]
          have hg := jobGet_jobUpdate_self (jobUpdate db id (procMark env)) id (fun j =>
              { j with status := Status.completed,
                       result := some (accumulate chunks),
                       completed_at := some env.now2,
                       processing_time := some (floorSecs env.now2 env.now1) })
          rw [hmid] at hg
          simp only [Option.map_some'] at hg
          refine ⟨_, hg, rfl, Or.inr (Or.inl ⟨⟨rfl, rfl, chunks, rfl, hb, rfl, rfl, rfl⟩, rfl⟩)⟩

/-- A string that is not blank is not empty. -/
theorem optNonEmpty_of_not_blank (s : String) (h : isBlank s = false) :
    optNonEmpty (some s) = true := by
  have hne : s ≠ "" := by
    intro he
    subst he
    have hb : isBlank "" = true := by decide
    simp [hb] at h
  simp [optNonEmpty, hne]

-- Helper lemmas for the duration parser.

/-- Every rendered digit character is a digit. -/
theorem digitChar_isDigit (d : Nat) : (digitChar d).isDigit = true := by
  rcases d with _ | _ | _ | _ | _ | _ | _ | _ | _ | n <;> rfl

/-- The rendered digit of a value below ten decodes back to it. -/
theorem digitChar_val (d : Nat) (h : d < 10) : (digitChar d).toNat - 48 = d := by
  interval_cases d <;> decide

/-- The decimal rendering is never empty. -/
theorem natDigits_ne_nil (n : Nat) : natDigits n ≠ [] := by
  unfold natDigits
  split
  · simp
  · simp

/-- Every character of the decimal rendering is a digit. -/
theorem natDigits_all_digit (n : Nat) : ∀ c ∈ natDigits n, c.isDigit = true := by
  induction n using Nat.strong_induction_on with
  | h n ih =>
    unfold natDigits
    split
    · intro c hc
      simp at hc
      subst hc
      exact digitChar_isDigit n
    · intro c hc
      rw [List.mem_append] at hc
      rcases hc with hc | hc
      · exact ih (n / 10) (Nat.div_lt_self (by omega) (by omega)) c hc
      · simp at hc
        subst hc
        exact digitChar_isDigit (n % 10)

/-- Folding one more trailing digit. -/
theorem digitsToNat_append_singleton (xs : List Char) (c : Char) :
    digitsToNat (xs ++ [c]) = digitsToNat xs * 10 + (c.toNat - 48) := by
  simp [digitsToNat, List.foldl_append]

/-- Decoding is inverse to rendering. -/
theorem digitsToNat_natDigits (n : Nat) : digitsToNat (natDigits n) = n := by
  induction n using Nat.strong_induction_on with
  | h n ih =>
    unfold natDigits
    split
    · rename_i h
      have hv := digitChar_val n h
      simp [digitsToNat]
      omega
    · rename_i h
      rw [digitsToNat_append_singleton,
        ih (n / 10) (Nat.div_lt_self (by omega) (by omega))]
      have hv := digitChar_val (n % 10) (Nat.mod_lt n (by omega))
      omega

/-- The greedy digit run of a digit block followed by a non-digit is the
block itself. -/
theorem takeWhile_digits_append (ds : List Char) (u : Char) (rest : List Char)
    (hds : ∀ c ∈ ds, c.isDigit = true) (hu : u.isDigit = false) :
    (ds ++ u :: rest).takeWhile Char.isDigit = ds := by
  induction ds with
  | nil => simp [List.takeWhile_cons, hu]
  | cons c cs ih =>
    have hc : c.isDigit = true := hds c (List.mem_cons_self c cs)
    simp [List.takeWhile_cons, hc,
      ih (fun x hx => hds x (List.mem_cons_of_mem c hx))]

/-- One regex group `(?:(\d+)U)?` consuming a digit block followed by its
unit letter. -/
theorem takeNumUnit_consume (ds : List Char) (u : Char) (rest : List Char)
    (hds : ∀ c ∈ ds, c.isDigit = true) (hne : ds ≠ []) (hu : u.isDigit = false) :
    takeNumUnit (ds ++ u :: rest) u = (digitsToNat ds, rest) := by
  have hie : ds.isEmpty = false := by
    cases ds with
    | nil => exact absurd rfl hne
    | cons a as => rfl
  simp only [takeNumUnit]
  rw [takeWhile_digits_append ds u rest hds hu]
  simp only [hie, Bool.false_eq_true, if_false, List.drop_left]
  simp

/-- The literal `PT` at the head is found immediately. -/
theorem afterPT_cons_PT (rest : List Char) : afterPT ('P' :: 'T' :: rest) = some rest := rfl

/-- A string without the literal `PT` does not match the regex. -/
theorem afterPT_eq_none (l : List Char) (h : containsSeq ['P', 'T'] l = false) :
    afterPT l = none := by
  induction l with
  | nil => rfl
  | cons c cs ih =>
    simp only [containsSeq, Bool.or_eq_false_iff] at h
    obtain ⟨h1, h2⟩ := h
    simp only [afterPT, h1, Bool.false_eq_true, if_false]
    exact ih h2

-- Claim C10.

/-- C10: the duration parser is total; on a full `PT<h>H<m>M<s>S` form it
returns hours, minutes and seconds combined; on a string without `PT` it
returns 0, so a malformed duration is processed at high resolution when
the caller does not override. -/
theorem parseDuration_spec :
    (∀ s : String, strIncludes s "PT" = false → parseDuration s = 0)
    ∧ (∀ hrs mins secs : Nat,
        parseDuration (mkPTString hrs mins secs) = hrs * 3600 + mins * 60 + secs)
    ∧ (∀ s : String, strIncludes s "PT" = false →
        useLowResolution false (parseDuration s) = false) := by
  have hnone : ∀ s : String, strIncludes s "PT" = false → parseDuration s = 0 := by
    intro s h
    have h2 : containsSeq ['P', 'T'] s.data = false := by
      have hpt : "PT".data = ['P', 'T'] := rfl
      rw [strIncludes, hpt] at h
      exact h
    unfold parseDuration
    rw [afterPT_eq_none s.data h2]
  refine ⟨hnone, ?_, ?_⟩
  · intro hrs mins secs
    have hH : ('H').isDigit = false := by decide
    have hM : ('M').isDigit = false := by decide
    have hS : ('S').isDigit = false := by decide
    have hdata : (mkPTString hrs mins secs).data
        = 'P' :: 'T' :: (natDigits hrs ++ 'H' ::
            (natDigits mins ++ 'M' :: (natDigits secs ++ ['S']))) := rfl
    simp only [parseDuration, hdata, afterPT_cons_PT]
    rw [takeNumUnit_consume _ _ _ (natDigits_all_digit hrs) (natDigits_ne_nil hrs) hH]
    dsimp only
    rw [takeNumUnit_consume _ _ _ (natDigits_all_digit mins) (natDigits_ne_nil mins) hM]
    dsimp only
    rw [takeNumUnit_consume _ _ _ (natDigits_all_digit secs) (natDigits_ne_nil secs) hS]
    dsimp only
    rw [digitsToNat_natDigits, digitsToNat_natDigits, digitsToNat_natDigits]
  · intro s h
    rw [hnone s h]
    decide

/-- C10 witness: a string without `PT` parses to 0 and selects high
resolution, and the rendered `PT1H2M3S` parses to 3723 seconds. -/
theorem parseDuration_spec_witness :
    parseDuration "no duration here" = 0
    ∧ parseDuration (mkPTString 1 2 3) = 1 * 3600 + 2 * 60 + 3
    ∧ useLowResolution false (parseDuration "no duration here") = false :=
  ⟨parseDuration_spec.1 "no duration here" (by decide),
   parseDuration_spec.2.1 1 2 3,
   parseDuration_spec.2.2 "no duration here" (by decide)⟩

-- Claim C1.

/-- C1 counterexample: the processor performs no conditional check before
invoking the analysis call.  Delivering the same job identifier twice (the
first delivery completing the job) invokes the analysis call on both
deliveries, refuting at-most-once execution. -/
theorem analysis_runs_twice_on_redelivery :
    (processVideoAnalysis "job1" benignEnv [("job1", pendingJob)]).invoked = true
    ∧ (jobGet (processVideoAnalysis "job1" benignEnv [("job1", pendingJob)]).db "job1").map
        (fun j => j.status) = some Status.completed
    ∧ (processVideoAnalysis "job1" benignEnv
        (processVideoAnalysis "job1" benignEnv [("job1", pendingJob)]).db).invoked = true := by
  decide

/-- C1 (amended): the processor updates the status to `processing`
unconditionally, with no check-and-set; whenever its first two store
operations succeed and the job row exists, it invokes the analysis call
regardless of the stored status, so each delivery of the same identifier
executes the analysis again. -/
theorem analysis_invoked_unconditionally (db : Store) (id : String) (env : Env) (job : Job)
    (hget : jobGet db id = some job)
    (hu1 : env.failUpdate1 = false) (hs1 : env.failSelect1 = false) :
    (processVideoAnalysis id env db).invoked = true := by
  have hmid : jobGet (jobUpdate db id (procMark env)) id = some (procMark env job) := by
    rw [jobGet_jobUpdate_self, hget]
    rfl
  rcases henv : env.analysis with e | chunks
  · have hrun : processVideoAnalysis id env db
        = handleFailure id env (jobUpdate db id (procMark env)) true e := by
      simp [processVideoAnalysis, hu1, hs1, hmid, henv]
    rw [hrun, handleFailure_invoked]
  · by_cases hb : isBlank (accumulate chunks) = true
    · have hrun : processVideoAnalysis id env db
          = handleFailure id env (jobUpdate db id (procMark env)) true (some noAnalysisMsg) := by
        simp [processVideoAnalysis, hu1, hs1, hmid, henv, hb]
      rw [hrun, handleFailure_invoked]
    · rw [Bool.not_eq_true] at hb
      by_cases hu2 : env.failUpdate2 = true
      · have hrun : processVideoAnalysis id env db
            = handleFailure id env (jobUpdate db id (procMark env)) true env.storeErr := by
          simp [processVideoAnalysis, hu1, hs1, hmid, henv, hb, hu2]
        rw [hrun, handleFailure_invoked]
      · rw [Bool.not_eq_true] at hu2
        simp [processVideoAnalysis, hu1, hs1, hmid, henv, hb, hu2]

/-- C1 witness: a fault-free delivery of an existing pending job invokes
the analysis call. -/
theorem analysis_invoked_unconditionally_witness :
    (processVideoAnalysis "job1" benignEnv [("job1", pendingJob)]).invoked = true :=
  analysis_invoked_unconditionally [("job1", pendingJob)] "job1" benignEnv pendingJob
    (by decide) rfl rfl

-- Claim C2.

/-- C2 counterexample: redelivering a job already in the terminal
`completed` state mutates it again — `started_at` is overwritten
(100 becomes 1000) and `result` is replaced. -/
theorem terminal_job_mutated_on_redelivery :
    completedJob.status = Status.completed
    ∧ completedJob.result = some "old answer"
    ∧ completedJob.started_at = some 100
    ∧ (jobGet (processVideoAnalysis "job1"
          { benignEnv with analysis := Except.ok [some "new answer"] }
          [("job1", completedJob)]).db "job1").map
        (fun j => (j.status, j.result, j.started_at))
      = some (Status.completed, some "new answer", some 1000) := by
  decide

/-- C2 (amended): within a single processor execution on an existing job
row whose initial update succeeds, the row afterwards is never `pending`
and `started_at` holds this delivery's start time; the initial update is
unconditional, so across redeliveries a terminal job can be regressed and
its fields overwritten. -/
theorem status_forward_within_execution (db : Store) (id : String) (env : Env) (job : Job)
    (hget : jobGet db id = some job) (hu1 : env.failUpdate1 = false) :
    ∃ j', jobGet (processVideoAnalysis id env db).db id = some j'
      ∧ j'.started_at = some env.now1
      ∧ j'.status ≠ Status.pending := by
  obtain ⟨j', hg, hst, hcases⟩ := processRun_cases db id env job hget hu1
  refine ⟨j', hg, hst, ?_⟩
  rcases hcases with ⟨⟨hp, _, _⟩, _⟩ | ⟨⟨hc, _⟩, _⟩ | ⟨⟨hf, _⟩, _⟩
  · rw [hp]
    decide
  · rw [hc]
    decide
  · rw [hf]
    decide

/-- C2 witness: a fault-free run on a pending job ends with the row
stamped and not pending. -/
theorem status_forward_within_execution_witness :
    ∃ j', jobGet (processVideoAnalysis "job1" benignEnv [("job1", pendingJob)]).db "job1" = some j'
      ∧ j'.started_at = some benignEnv.now1
      ∧ j'.status ≠ Status.pending :=
  status_forward_within_execution [("job1", pendingJob)] "job1" benignEnv pendingJob
    (by decide) rfl

-- Claim C3.

/-- C3 counterexample: redelivering a completed job under a quota error
yields a row with status `failed` whose stale `result` is not cleared, so
`result` and `error` are both non-empty at once. -/
theorem failed_job_retains_stale_result :
    (jobGet (processVideoAnalysis "job1" quotaEnv [("job1", completedJob)]).db "job1").map
        (fun j => (j.status, j.result, j.error))
      = some (Status.failed, some "old answer",
          some "API quota exceeded. Please try again later or upgrade your plan")
    ∧ (jobGet (processVideoAnalysis "job1" quotaEnv [("job1", completedJob)]).db "job1").map
        (fun j => (optNonEmpty j.result, optNonEmpty j.error))
      = some (true, true) := by
  decide

/-- C3 (amended): for an execution starting from a job row with empty
`result` and `error` (as created), given that raised store and provider
messages are nonempty, the row afterwards satisfies: `result` nonempty iff
`completed`, and `error` nonempty iff `failed`.  Redelivery of a terminal
job breaks this, since the stale `result` is never cleared. -/
theorem result_error_iff_single_run (db : Store) (id : String) (env : Env) (job : Job)
    (hget : jobGet db id = some job)
    (hres : job.result = none) (herr : job.error = none)
    (hu1 : env.failUpdate1 = false)
    (hstore : ∀ m, env.storeErr = some m → m ≠ "")
    (hana : ∀ m, env.analysis = Except.error (some m) → m ≠ "") :
    ∃ j', jobGet (processVideoAnalysis id env db).db id = some j'
      ∧ (optNonEmpty j'.result = true ↔ j'.status = Status.completed)
      ∧ (optNonEmpty j'.error = true ↔ j'.status = Status.failed) := by
  obtain ⟨j', hg, _, hcases⟩ := processRun_cases db id env job hget hu1
  refine ⟨j', hg, ?_⟩
  rcases hcases with ⟨⟨hp, hr, he⟩, _⟩ | ⟨⟨hc, he, chunks, _, hb, hr, _, _⟩, _⟩
    | ⟨⟨hf, hr, ⟨e, hsrc, he⟩, _, _⟩, _⟩
  · constructor
    · simp [hr, hres, hp, optNonEmpty]
    · simp [he, herr, hp, optNonEmpty]
  · constructor
    · rw [hr, hc]
      simp [optNonEmpty_of_not_blank _ hb]
    · rw [he, herr, hc]
      simp [optNonEmpty]
  · have hme : ∀ m, e = some m → m ≠ "" := by
      rcases hsrc with h1 | h1 | h1
      · intro m hm
        exact hstore m (h1 ▸ hm)
      · intro m hm
        rw [h1] at hm
        injection hm with hh
        rw [← hh]
        decide
      · intro m hm
        exact hana m (by rw [h1, hm])
    have hcne := classifyError_ne_empty e hme
    constructor
    · simp [hr, hres, hf, optNonEmpty]
    · rw [he, hf]
      simp [optNonEmpty, hcne]

/-- C3 witness: a fault-free successful run on a fresh pending job
satisfies both equivalences. -/
theorem result_error_iff_single_run_witness :
    ∃ j', jobGet (processVideoAnalysis "job1" benignEnv [("job1", pendingJob)]).db "job1" = some j'
      ∧ (optNonEmpty j'.result = true ↔ j'.status = Status.completed)
      ∧ (optNonEmpty j'.error = true ↔ j'.status = Status.failed) :=
  result_error_iff_single_run [("job1", pendingJob)] "job1" benignEnv pendingJob
    (by decide) rfl rfl rfl
    (by intro m hm; injection hm with hh; rw [← hh]; decide)
    (by intro m hm; simp [benignEnv] at hm)

-- Claim C4.

/-- Every message of a batch yields exactly one acknowledgement decision,
even when earlier messages raised. -/
theorem queueConsume_length (batch : List (String × Env)) (db : Store) :
    (queueConsume batch db).2.length = batch.length := by
  induction batch generalizing db with
  | nil => rfl
  | cons p rest ih =>
    obtain ⟨id, env⟩ := p
    simp [queueConsume, ih]

/-- C4: the consumer handles each notification independently (every message
of a batch gets a decision), acknowledges a delivery exactly when the
processor returned without raising, and a processor execution that records
a `failed` job (analysis fault, working store) counts as success and is
acknowledged. -/
theorem queue_ack_iff_processor_returns :
    (∀ (batch : List (String × Env)) (db : Store),
      (queueConsume batch db).2.length = batch.length)
    ∧ (∀ (id : String) (env : Env) (rest : List (String × Env)) (db : Store),
      (queueConsume ((id, env) :: rest) db).2
        = (!(processVideoAnalysis id env db).raised)
            :: (queueConsume rest (processVideoAnalysis id env db).db).2)
    ∧ (∀ (db : Store) (id : String) (env : Env) (job : Job) (e : Option String),
      jobGet db id = some job →
      env.failUpdate1 = false → env.failSelect1 = false →
      env.analysis = Except.error e →
      env.failSelect2 = false → env.failUpdate3 = false →
      (processVideoAnalysis id env db).raised = false) := by
  refine ⟨queueConsume_length, fun id env rest db => rfl, ?_⟩
  intro db id env job e hget hu1 hs1 henv hs2 hu3
  have hmid : jobGet (jobUpdate db id (procMark env)) id = some (procMark env job) := by
    rw [jobGet_jobUpdate_self, hget]
    rfl
  have hrun : processVideoAnalysis id env db
      = handleFailure id env (jobUpdate db id (procMark env)) true e := by
    simp [processVideoAnalysis, hu1, hs1, hmid, henv]
  rw [hrun, handleFailure_eq_write _ _ _ _ _ hs2 hu3]

/-- C4 witness: a one-message batch is fully handled, and a provider quota
fault still ends in a returning (acknowledged) processor execution. -/
theorem queue_ack_iff_processor_returns_witness :
    (queueConsume [("job1", quotaEnv)] [("job1", pendingJob)]).2.length = 1
    ∧ (processVideoAnalysis "job1" quotaEnv [("job1", pendingJob)]).raised = false :=
  ⟨queue_ack_iff_processor_returns.1 [("job1", quotaEnv)] [("job1", pendingJob)],
   queue_ack_iff_processor_returns.2.2 [("job1", pendingJob)] "job1" quotaEnv pendingJob
     (some "QUOTA_EXCEEDED: rate limit") (by decide) rfl rfl rfl rfl rfl⟩

-- Claim C5.

/-- C5: the classifier checks the five categories in their fixed order with
first match winning, passes unmatched messages through, uses the generic
fallback when no message is available, and classifies a message holding
both QUOTA_EXCEEDED and NOT_FOUND as the quota message. -/
theorem errorClassifier_fixed_order :
    classifyError none = unknownErrorMsg
    ∧ (∀ m : String,
        (strIncludes m "API_KEY" || strIncludes m "UNAUTHENTICATED") = true →
        classifyError (some m) = "Invalid or missing Google Generative AI API key")
    ∧ (∀ m : String,
        (strIncludes m "API_KEY" || strIncludes m "UNAUTHENTICATED") = false →
        (strIncludes m "QUOTA_EXCEEDED" || strIncludes m "RESOURCE_EXHAUSTED") = true →
        classifyError (some m) = "API quota exceeded. Please try again later or upgrade your plan")
    ∧ (∀ m : String,
        (strIncludes m "API_KEY" || strIncludes m "UNAUTHENTICATED") = false →
        (strIncludes m "QUOTA_EXCEEDED" || strIncludes m "RESOURCE_EXHAUSTED") = false →
        strIncludes m "PERMISSION_DENIED" = true →
        classifyError (some m) = "Permission denied. Check your API key permissions")
    ∧ (∀ m : String,
        (strIncludes m "API_KEY" || strIncludes m "UNAUTHENTICATED") = false →
        (strIncludes m "QUOTA_EXCEEDED" || strIncludes m "RESOURCE_EXHAUSTED") = false →
        strIncludes m "PERMISSION_DENIED" = false →
        strIncludes m "NOT_FOUND" = true →
        classifyError (some m) = "Video not found or is private/unavailable")
    ∧ (∀ m : String,
        (strIncludes m "API_KEY" || strIncludes m "UNAUTHENTICATED") = false →
        (strIncludes m "QUOTA_EXCEEDED" || strIncludes m "RESOURCE_EXHAUSTED") = false →
        strIncludes m "PERMISSION_DENIED" = false →
        strIncludes m "NOT_FOUND" = false →
        strIncludes m "INVALID_ARGUMENT" = true →
        classifyError (some m) = "Invalid video format or unsupported content")
    ∧ (∀ m : String,
        (strIncludes m "API_KEY" || strIncludes m "UNAUTHENTICATED") = false →
        (strIncludes m "QUOTA_EXCEEDED" || strIncludes m "RESOURCE_EXHAUSTED") = false →
        strIncludes m "PERMISSION_DENIED" = false →
        strIncludes m "NOT_FOUND" = false →
        strIncludes m "INVALID_ARGUMENT" = false →
        classifyError (some m) = m)
    ∧ classifyError (some "error: QUOTA_EXCEEDED while NOT_FOUND")
        = "API quota exceeded. Please try again later or upgrade your plan" := by
  refine ⟨rfl, ?_, ?_, ?_, ?_, ?_, ?_, by decide⟩
  · intro m h1
    simp [classifyError, h1]
  · intro m h1 h2
    simp [classifyError, h1, h2]
  · intro m h1 h2 h3
    simp [classifyError, h1, h2, h3]
  · intro m h1 h2 h3 h4
    simp [classifyError, h1, h2, h3, h4]
  · intro m h1 h2 h3 h4 h5
    simp [classifyError, h1, h2, h3, h4, h5]
  · intro m h1 h2 h3 h4 h5
    simp [classifyError, h1, h2, h3, h4, h5]

/-- C5 witness: an UNAUTHENTICATED message classifies as the credentials
message through the first category. -/
theorem errorClassifier_fixed_order_witness :
    classifyError (some "UNAUTHENTICATED: bad key")
      = "Invalid or missing Google Generative AI API key" :=
  errorClassifier_fixed_order.2.1 "UNAUTHENTICATED: bad key" (by decide)

-- Claim C6.

/-- C6: the override flag forces low resolution; without it, low resolution
is selected exactly when the duration exceeds 3600 seconds; in particular
600s without override is high resolution, 4000s without override is low,
and 100s with override is low. -/
theorem durationClassifier_policy :
    (∀ d : Nat, useLowResolution true d = true)
    ∧ (∀ d : Nat, useLowResolution false d = true ↔ 3600 < d)
    ∧ useLowResolution false 600 = false
    ∧ useLowResolution false 4000 = true
    ∧ useLowResolution true 100 = true := by
  refine ⟨fun d => rfl, fun d => ?_, by decide, by decide, by decide⟩
  simp [useLowResolution]

/-- C6 witness: the override flag forces low resolution at 5 seconds. -/
theorem durationClassifier_policy_witness :
    useLowResolution true 5 = true :=
  durationClassifier_policy.1 5

-- Claim C7.

/-- C7: when the analysis call succeeds but the accumulated text is blank,
the processor (with a working store) marks the job `failed` with the
specific unavailable-video message; and an execution of a pending job
under a blank analysis never leaves the job `completed`. -/
theorem blank_result_marks_failed :
    (∀ (db : Store) (id : String) (env : Env) (job : Job) (chunks : List (Option String)),
      jobGet db id = some job →
      env.failUpdate1 = false → env.failSelect1 = false →
      env.analysis = Except.ok chunks → isBlank (accumulate chunks) = true →
      env.failSelect2 = false → env.failUpdate3 = false →
      ∃ j', jobGet (processVideoAnalysis id env db).db id = some j'
        ∧ j'.status = Status.failed
        ∧ j'.error = some noAnalysisMsg)
    ∧ (∀ (db : Store) (id : String) (env : Env) (job : Job)
        (chunks : List (Option String)) (j' : Job),
      jobGet db id = some job → job.status = Status.pending →
      env.analysis = Except.ok chunks → isBlank (accumulate chunks) = true →
      jobGet (processVideoAnalysis id env db).db id = some j' →
      j'.status ≠ Status.completed) := by
  constructor
  · intro db id env job chunks hget hu1 hs1 henv hb hs2 hu3
    have hmid : jobGet (jobUpdate db id (procMark env)) id = some (procMark env job) := by
      rw [jobGet_jobUpdate_self, hget]
      rfl
    have hrun : processVideoAnalysis id env db
        = handleFailure id env (jobUpdate db id (procMark env)) true (some noAnalysisMsg) := by
      simp [processVideoAnalysis, hu1, hs1, hmid, henv, hb]
    rw [hrun, handleFailure_eq_write _ _ _ _ _ hs2 hu3]
    have hg := jobGet_jobUpdate_self (jobUpdate db id (procMark env)) id (fun j =>
        { j with status := Status.failed,
                 error := some (classifyError (some noAnalysisMsg)),
                 processing_time := some (catchProcTime (jobUpdate db id (procMark env)) id env.nowF),
                 completed_at := some env.nowF })
    rw [hmid] at hg
    simp only [Option.map_some'] at hg
    refine ⟨_, hg, rfl, ?_⟩
    have hpass : classifyError (some noAnalysisMsg) = noAnalysisMsg := by decide
    exact congrArg some hpass
  · intro db id env job chunks j' hget hstat henv hb hfin
    by_cases hu1 : env.failUpdate1 = true
    · have hrun : processVideoAnalysis id env db
          = handleFailure id env db false env.storeErr := by
        simp [processVideoAnalysis, hu1]
      rw [hrun] at hfin
      obtain ⟨j2, hg2, _, _, hcases⟩ := handleFailure_final id env db false env.storeErr job hget
      injection (hg2.symm.trans hfin) with hh
      subst hh
      rcases hcases with ⟨heq, _⟩ | ⟨hf, _⟩
      · rw [heq, hstat]
        decide
      · rw [hf]
        decide
    · rw [Bool.not_eq_true] at hu1
      obtain ⟨j2, hg2, _, hcases⟩ := processRun_cases db id env job hget hu1
      injection (hg2.symm.trans hfin) with hh
      subst hh
      rcases hcases with ⟨⟨hp, _, _⟩, _⟩ | ⟨⟨_, _, chunks2, henv2, hb2, _⟩, _⟩ | ⟨⟨hf, _⟩, _⟩
      · rw [hp]
        decide
      · rw [henv] at henv2
        injection henv2 with hh2
        subst hh2
        simp [hb] at hb2
      · rw [hf]
        decide

/-- C7 witness: a whitespace-only stream on a pending job marks it failed
with the unavailable-video message. -/
theorem blank_result_marks_failed_witness :
    ∃ j', jobGet (processVideoAnalysis "job1"
        { benignEnv with analysis := Except.ok [some "  ", none, some ""] }
        [("job1", pendingJob)]).db "job1" = some j'
      ∧ j'.status = Status.failed
      ∧ j'.error = some noAnalysisMsg :=
  blank_result_marks_failed.1 [("job1", pendingJob)] "job1"
    { benignEnv with analysis := Except.ok [some "  ", none, some ""] }
    pendingJob [some "  ", none, some ""] (by decide) rfl rfl rfl (by decide) rfl rfl

-- Claim C8.

/-- C8: a completed job records its result and completion time in the one
completing update, with the processing duration equal to the completion
time minus the start time floored to whole seconds; and every failure
record written by the catch block stamps the completion time and the
duration computed the same way from the stored start time. -/
theorem terminal_duration_formula :
    (∀ (db : Store) (id : String) (env : Env) (job : Job) (chunks : List (Option String)),
      jobGet db id = some job →
      env.failUpdate1 = false → env.failSelect1 = false → env.failUpdate2 = false →
      env.analysis = Except.ok chunks → isBlank (accumulate chunks) = false →
      ∃ j', jobGet (processVideoAnalysis id env db).db id = some j'
        ∧ j'.status = Status.completed
        ∧ j'.result = some (accumulate chunks)
        ∧ ∃ c s, j'.completed_at = some c ∧ j'.started_at = some s
            ∧ j'.processing_time = some (floorSecs c s))
    ∧ (∀ (id : String) (env : Env) (db : Store) (inv : Bool) (e : Option String) (job : Job),
      jobGet db id = some job →
      env.failSelect2 = false → env.failUpdate3 = false →
      ∃ j', jobGet (handleFailure id env db inv e).db id = some j'
        ∧ j'.status = Status.failed
        ∧ j'.completed_at = some env.nowF
        ∧ j'.started_at = job.started_at
        ∧ ∀ s, job.started_at = some s →
            j'.processing_time = some (floorSecs env.nowF s)) := by
  constructor
  · intro db id env job chunks hget hu1 hs1 hu2 henv hb
    have hmid : jobGet (jobUpdate db id (procMark env)) id = some (procMark env job) := by
      rw [jobGet_jobUpdate_self, hget]
      rfl
    have hrun : processVideoAnalysis id env db
        = ⟨jobUpdate (jobUpdate db id (procMark env)) id (fun j =>
            { j with status := Status.completed,
                     result := some (accumulate chunks),
                     completed_at := some env.now2,
                     processing_time := some (floorSecs env.now2 env.now1) }),
           false, true⟩ := by
      simp [processVideoAnalysis, hu1, hs1, hmid, henv, hb, hu2, procMark]
    rw [hrun]
    have hg := jobGet_jobUpdate_self (jobUpdate db id (procMark env)) id (fun j =>
        { j with status := Status.completed,
                 result := some (accumulate chunks),
                 completed_at := some env.now2,
                 processing_time := some (floorSecs env.now2 env.now1) })
    rw [hmid] at hg
    simp only [Option.map_some'] at hg
    exact ⟨_, hg, rfl, rfl, env.now2, env.now1, rfl, rfl, rfl⟩
  · intro id env db inv e job hget hs2 hu3
    rw [handleFailure_eq_write _ _ _ _ _ hs2 hu3]
    have hg := jobGet_jobUpdate_self db id (fun j =>
        { j with status := Status.failed, error := some (classifyError e),
                 processing_time := some (catchProcTime db id env.nowF),
                 completed_at := some env.nowF })
    rw [hget] at hg
    simp only [Option.map_some'] at hg
    refine ⟨_, hg, rfl, rfl, rfl, ?_⟩
    intro s hs
    have hc : catchProcTime db id env.nowF = floorSecs env.nowF s := by
      simp [catchProcTime, hget, hs]
    exact congrArg some hc

/-- C8 witness: the fault-free successful run records result, completion
time and the floored duration. -/
theorem terminal_duration_formula_witness :
    ∃ j', jobGet (processVideoAnalysis "job1" benignEnv [("job1", pendingJob)]).db "job1" = some j'
      ∧ j'.status = Status.completed
      ∧ j'.result = some (accumulate [some "All good"])
      ∧ ∃ c s, j'.completed_at = some c ∧ j'.started_at = some s
          ∧ j'.processing_time = some (floorSecs c s) :=
  terminal_duration_formula.1 [("job1", pendingJob)] "job1" benignEnv pendingJob
    [some "All good"] (by decide) rfl rfl rfl rfl (by decide)

-- Claim C9.

/-- C9 counterexample: the initial status update raises (store briefly
unreachable) but the store recovers before the catch block runs; the raw
infrastructure message is then written into the job as a `failed` record
and the delivery is acknowledged, contradicting the claim that
infrastructure faults are never recorded and leave the delivery
unacknowledged. -/
theorem infra_fault_written_when_store_recovers :
    (processVideoAnalysis "job1" storeDownEnv [("job1", pendingJob)]).raised = false
    ∧ (jobGet (processVideoAnalysis "job1" storeDownEnv [("job1", pendingJob)]).db "job1").map
        (fun j => (j.status, j.error))
      = some (Status.failed, some "D1 store unreachable") := by
  decide

/-- C9 (amended): when a store fault persists through the catch block
(its re-read also raises), nothing is written and the delivery is left for
redelivery; and an analysis fault with a working store always terminates
the job as `failed` with the classified message and is acknowledged.  But
an infrastructure fault followed by store recovery within the same
execution is recorded into the job like an analysis fault. -/
theorem infra_vs_analysis_fault_handling :
    (∀ (db : Store) (id : String) (env : Env),
      env.failUpdate1 = true → env.failSelect2 = true →
      processVideoAnalysis id env db = ⟨db, true, false⟩)
    ∧ (∀ (db : Store) (id : String) (env : Env) (job : Job) (e : Option String),
      jobGet db id = some job →
      env.failUpdate1 = false → env.failSelect1 = false →
      env.analysis = Except.error e →
      env.failSelect2 = false → env.failUpdate3 = false →
      ∃ j', jobGet (processVideoAnalysis id env db).db id = some j'
        ∧ j'.status = Status.failed
        ∧ j'.error = some (classifyError e)
        ∧ (processVideoAnalysis id env db).raised = false) := by
  constructor
  · intro db id env h1 h2
    simp [processVideoAnalysis, h1,
      handleFailure_eq_of_failSelect2 id env db false env.storeErr h2]
  · intro db id env job e hget hu1 hs1 henv hs2 hu3
    have hmid : jobGet (jobUpdate db id (procMark env)) id = some (procMark env job) := by
      rw [jobGet_jobUpdate_self, hget]
      rfl
    have hrun : processVideoAnalysis id env db
        = handleFailure id env (jobUpdate db id (procMark env)) true e := by
      simp [processVideoAnalysis, hu1, hs1, hmid, henv]
    rw [hrun, handleFailure_eq_write _ _ _ _ _ hs2 hu3]
    have hg := jobGet_jobUpdate_self (jobUpdate db id (procMark env)) id (fun j =>
        { j with status := Status.failed, error := some (classifyError e),
                 processing_time := some (catchProcTime (jobUpdate db id (procMark env)) id env.nowF),
                 completed_at := some env.nowF })
    rw [hmid] at hg
    simp only [Option.map_some'] at hg
    exact ⟨_, hg, rfl, rfl, rfl⟩

/-- C9 witness: a quota fault from the provider with a working store
terminates the job as `failed` with the classified message and the
delivery acknowledged. -/
theorem infra_vs_analysis_fault_handling_witness :
    ∃ j', jobGet (processVideoAnalysis "job1" quotaEnv [("job1", pendingJob)]).db "job1" = some j'
      ∧ j'.status = Status.failed
      ∧ j'.error = some (classifyError (some "QUOTA_EXCEEDED: rate limit"))
      ∧ (processVideoAnalysis "job1" quotaEnv [("job1", pendingJob)]).raised = false :=
  infra_vs_analysis_fault_handling.2 [("job1", pendingJob)] "job1" quotaEnv pendingJob
    (some "QUOTA_EXCEEDED: rate limit") (by decide) rfl rfl rfl rfl rfl
